import Mathlib

/-!
Shallow embedding of the modification pipeline and batch templating engine of
the `fss-parse-pdf-ts` repository (sources: `src/cli.ts`, `src/pdf-parser.ts`,
`src/safety-manager.ts` (which also contains the `PDFModifier` class),
`src/pdf-generator.ts`, `src/types.ts`).

Conventions used throughout:
* JavaScript numbers that can be `NaN` are embedded as `JsNum` (`nan` or a
  rational); integers produced by `parseInt` are embedded as `Option Int`
  (`none` = `NaN`).
* Fallible external collaborators (the file system, the `pdf-lib` document
  model, `pdf-parse`) are embedded as explicit oracle records passed to the
  functions that consult them; `none` / `false` models a thrown exception at
  that call site.
* TypeScript `try`/`catch` becomes `Except` or an explicit `match` on the
  oracle result; a caught-and-swallowed exception becomes the skip branch.
-/

/-- A JavaScript floating-point value as the coordinate-parsing code produces
and stores it: `NaN`, or the decimal literal `m / 10 ^ e` kept in
unnormalised decimal form (mantissa and number of fractional digits).  The
verified code only ever stores and forwards coordinate values — no arithmetic
is performed on them — so this representation is adequate and keeps every
concrete run computable by the kernel. -/
inductive JsNum where
  | nan : JsNum
  | num : Int → Nat → JsNum
deriving DecidableEq, Repr

/-- A JavaScript integer value (no fractional digits). -/
def JsNum.int (n : Int) : JsNum := JsNum.num n 0

/-- Splitting a character list at every occurrence of a separator character;
the structural core of `jsSplit`. -/
def splitChars (sep : Char) : List Char → List (List Char)
  | [] => [[]]
  | c :: cs =>
    let r := splitChars sep cs
    if c = sep then [] :: r
    else match r with
      | [] => [[c]]
      | t :: ts => (c :: t) :: ts

/-- Model of JavaScript `String.prototype.split` with a one-character
separator (the source only ever splits on a comma, a dash or a colon).
As in JavaScript, `"".split(sep) = [""]`. -/
def jsSplit (s : String) (sep : Char) : List String :=
  (splitChars sep s.toList).map List.asString

/-- Whitespace predicate for `jsTrim` (space, tab, carriage return, newline:
the characters relevant to the verified properties). -/
def jsIsWhitespace (c : Char) : Bool :=
  c = ' ' || c = '\t' || c = '\r' || c = '\n'

/-- Model of JavaScript `String.prototype.trim`. -/
def jsTrim (s : String) : String :=
  (((s.toList.dropWhile jsIsWhitespace).reverse.dropWhile jsIsWhitespace).reverse).asString

/-- Model of JavaScript `String.prototype.includes` with a one-character
needle (the source only tests for a dash or a colon). -/
def jsIncludes (s : String) (c : Char) : Bool :=
  s.toList.contains c

/-- Numeric value of a maximal leading run of decimal digits; `none` when the
run is empty (which `parseInt`/`parseFloat` report as `NaN`). -/
def leadingDigitsVal (cs : List Char) : Option Nat :=
  let ds := cs.takeWhile (fun c => c.isDigit)
  if ds.isEmpty then none
  else some (ds.foldl (fun a c => a * 10 + (c.toNat - '0'.toNat)) 0)

/-- Model of the JavaScript builtin `parseInt(s)` (radix 10): skip leading
whitespace, optional sign, then the longest run of decimal digits; `none`
models `NaN`.  (The automatic `0x` hexadecimal detection of the builtin is not
modelled; no verified property depends on it, and every concrete input used
below is plain decimal.) -/
def jsParseInt (s : String) : Option Int :=
  match (jsTrim s).toList with
  | '-' :: rest => (leadingDigitsVal rest).map (fun n => -(n : Int))
  | '+' :: rest => (leadingDigitsVal rest).map (fun n => (n : Int))
  | cs => (leadingDigitsVal cs).map (fun n => (n : Int))

/-- Model of the JavaScript builtin `parseFloat(s)` restricted to plain decimal
literals: skip whitespace, optional sign, digits with an optional fractional
part, trailing junk ignored; `JsNum.nan` when no digits are found.  (Exponent
and `Infinity` forms are not modelled; no verified property depends on them.) -/
def jsParseFloat (s : String) : JsNum :=
  let core := fun (cs : List Char) (sign : Int) =>
    let intDs := cs.takeWhile (fun c => c.isDigit)
    let rest := cs.drop intDs.length
    let fracDs := match rest with
      | '.' :: r => r.takeWhile (fun c => c.isDigit)
      | _ => []
    if intDs.isEmpty && fracDs.isEmpty then JsNum.nan
    else
      JsNum.num
        (sign * ((intDs ++ fracDs).foldl (fun a c => a * 10 + (c.toNat - '0'.toNat)) 0 : Nat))
        fracDs.length
  match (jsTrim s).toList with
  | '-' :: rest => core rest (-1)
  | '+' :: rest => core rest 1
  | cs => core cs 1

namespace PdfParser

/-- Body of `addRange` below, structurally recursive on the number of
remaining loop iterations so that concrete runs reduce in the kernel. -/
def addRangeAux (pages : List Int) (i : Int) : Nat → List Int
  | 0 => pages
  | n + 1 => addRangeAux (if i ∈ pages then pages else pages ++ [i]) (i + 1) n

/-- The inner `for (let i = start; i <= Math.min(end, totalPages); i++)` loop of
`PdfParser.parsePageRange` (`src/pdf-parser.ts` lines 307-309): append every
integer of `[i, bound]` that is not already present.  The loop runs exactly
`(bound + 1 - i).toNat` times. -/
def addRange (pages : List Int) (i bound : Int) : List Int :=
  addRangeAux pages i (bound + 1 - i).toNat

/-- One iteration of the `for (const part of parts)` loop of
`PdfParser.parsePageRange` (`src/pdf-parser.ts` lines 304-316): a token
containing a dash is split and traversed as a clipped closed range, a bare
token is kept only when inside `[1, totalPages]` and not already present. -/
def processToken (totalPages : Int) (pages : List Int) (part : String) : List Int :=
  if jsIncludes part '-' then
    let nums := (jsSplit part '-').map (fun n => jsParseInt (jsTrim n))
    match nums[0]?.getD none, nums[1]?.getD none with
    | some start, some stop => addRange pages start (min stop totalPages)
    | _, _ => pages
  else
    match jsParseInt (jsTrim part) with
    | some n => if 1 ≤ n ∧ n ≤ totalPages ∧ n ∉ pages then pages ++ [n] else pages
    | none => pages

/-- `PdfParser.parsePageRange(range, totalPages)` (`src/pdf-parser.ts` lines
300-319): split on commas, accumulate pages token by token, then sort
ascending (the final `pages.sort((a, b) => a - b)`). -/
def parsePageRange (range : String) (totalPages : Int) : List Int :=
  let parts := jsSplit range ','
  let pages := parts.foldl (processToken totalPages) []
  List.insertionSort (· ≤ ·) pages

end PdfParser

deriving instance DecidableEq for Except

/-- Model of JavaScript `String.prototype.endsWith` (suffix test on the
character sequence). -/
def jsEndsWith (s suffixStr : String) : Bool :=
  suffixStr.toList.isSuffixOf s.toList

/-- Model of JavaScript `String.prototype.toLowerCase` for the ASCII range the
source compares against (image-file extensions). -/
def jsToLower (s : String) : String :=
  (s.toList.map Char.toLower).asString

namespace PDFModifier

/-- The runtime-type dispatch of `fillForms` on `field.constructor.name`
(`PDFTextField` / `PDFCheckBox` / `PDFRadioGroup`, anything else untouched). -/
inductive FieldKind where
  | textField
  | checkBox
  | radioGroup
  | other
deriving DecidableEq, Repr

/-- One interactive form field of a loaded document: its name (matched
case-sensitively by `fillForms`), its runtime kind, and its current value. -/
structure PdfField where
  name : String
  kind : FieldKind
  value : String
deriving DecidableEq, Repr

/-- One page of a loaded document, as far as the modifier observes it: the log
of `drawText` calls (text and the x/y actually passed, `none` = a missing
array element, i.e. JavaScript `undefined`) and of `drawImage` calls (image
path and the position array passed along). -/
structure PdfPage where
  texts : List (String × Option JsNum × Option JsNum)
  images : List (String × List JsNum)
deriving DecidableEq, Repr

/-- A loaded `pdf-lib` document: its pages and its form fields. -/
structure PdfDoc where
  pages : List PdfPage
  fields : List PdfField
deriving DecidableEq, Repr

/-- `FormFillData` (`src/safety-manager.ts` PDFModifier part, lines 132-136).
The CLI builders always produce string values (`valueParts.join(":").trim()`),
so the value is embedded as a string. -/
structure FormFillData where
  fieldName : String
  fieldValue : String
deriving DecidableEq, Repr

/-- `TextInsertion` (lines 138-145).  `position` is declared
`[number, number]` in TypeScript but is produced at runtime by
`split(",").map(parseFloat)` with no length guarantee in the batch path, so it
is embedded as a list. -/
structure TextInsertion where
  text : String
  position : List JsNum
  pageNumber : Option JsNum := none
  fontSize : Option JsNum := none
  color : Option (JsNum × JsNum × JsNum) := none
  fontName : Option String := none
deriving DecidableEq, Repr

/-- `SignatureOptions` (lines 124-130); the same remark about `position`
applies (the batch path pushes whatever array the split produced). -/
structure SignatureOptions where
  position : List JsNum
  imagePath : Option String := none
  text : Option String := none
  fontSize : Option JsNum := none
  color : Option (JsNum × JsNum × JsNum) := none
deriving DecidableEq, Repr

/-- `ImageInsertion` (lines 147-151). -/
structure ImageInsertion where
  imagePath : String
  position : List JsNum
  pageNumber : Option JsNum := none
deriving DecidableEq, Repr

/-- `PDFModificationResult` (lines 153-163).  `processingTime` is wall-clock
and is embedded as the constant 0. -/
structure PDFModificationResult where
  success : Bool
  modificationsApplied : Nat
  signaturesAdded : Nat
  formsFilled : Nat
  textInsertions : Nat
  imageInsertions : Nat
  outputPath : String
  processingTime : Nat
  errorMessage : Option String := none
deriving DecidableEq, Repr

/-- Oracle for the `pdf-lib` calls whose failure the modifier catches per
edit (or, for `getForm`, per kind): `false` models a thrown exception at that
call site. -/
structure PdfLibOracle where
  getFormOk : PdfDoc → Bool
  fieldApplyOk : FieldKind → String → Bool
  drawTextOk : String → Bool
  readFileOk : String → Bool
  embedOk : String → Bool
  drawImageOk : String → Bool

/-- Oracle for the file system and the document open/save calls of
`modifyWithPdfLib`; bytes are abstract tokens, `none`/`false` models a thrown
exception. -/
structure FsOracle where
  readInput : String → Option Nat
  loadDoc : Nat → Option PdfDoc
  saveDoc : PdfDoc → Option Nat
  writeOutput : String → Nat → Bool

/-- JavaScript `textItem.pageNumber || 0`: `undefined`, `NaN` and `0` all
yield `0`. -/
def pageOr0 : Option JsNum → JsNum
  | some (JsNum.num m e) => if m = 0 then JsNum.int 0 else JsNum.num m e
  | _ => JsNum.int 0

/-- JavaScript array indexing `pages[idx]` for a numeric index: defined (as a
natural index) exactly when the index is a non-negative integer below the
length; every other index reads `undefined`. -/
def jsIndex (idx : JsNum) (len : Nat) : Option Nat :=
  match idx with
  | JsNum.nan => none
  | JsNum.num m e =>
    if (10 : Int) ^ e ∣ m ∧ 0 ≤ m ∧ m < (len : Int) * (10 : Int) ^ e then
      some (m / (10 : Int) ^ e).toNat
    else none

/-- Effect of a successful `setText` / `check` / `uncheck` / `select` on a
field (`fillForms` lines 296-314); the checkbox branch tests JavaScript
truthiness of the value. -/
def applyFieldValue (f : PdfField) (v : String) : PdfField :=
  match f.kind with
  | .textField => { f with value := v }
  | .checkBox => { f with value := if v ≠ "" then "on" else "off" }
  | .radioGroup => { f with value := v }
  | .other => f

/-- Replace the field at a given index of the document. -/
def setField (doc : PdfDoc) (idx : Nat) (v : String) : PdfDoc :=
  match doc.fields[idx]? with
  | some f => { doc with fields := doc.fields.set idx (applyFieldValue f v) }
  | none => doc

/-- One iteration of the `for (const formItem of formData)` loop of
`PDFModifier.fillForms` (lines 292-319): find the field by exact name; no
match or an unrecognised kind leaves the document and the count unchanged; a
per-item exception from the field operation is caught and skipped. -/
def fillFormsStep (orc : PdfLibOracle) (acc : PdfDoc × Nat) (item : FormFillData) :
    PdfDoc × Nat :=
  let (doc, n) := acc
  match doc.fields.findIdx? (fun f => f.name = item.fieldName) with
  | none => (doc, n)
  | some idx =>
    match doc.fields[idx]? with
    | none => (doc, n)
    | some f =>
      match f.kind with
      | .other => (doc, n)
      | k =>
        if orc.fieldApplyOk k item.fieldValue then (setField doc idx item.fieldValue, n + 1)
        else (doc, n)

/-- `PDFModifier.fillForms` (lines 285-325): the whole loop sits in an outer
`try` whose `catch` logs and returns whatever was counted so far; a `getForm`
failure therefore yields count 0 with the document untouched. -/
def fillForms (orc : PdfLibOracle) (doc : PdfDoc) (formData : List FormFillData) :
    PdfDoc × Nat :=
  if orc.getFormOk doc then formData.foldl (fillFormsStep orc) (doc, 0)
  else (doc, 0)

/-- Append a `drawImage` record to page 0. -/
def drawImageOnFirstPage (doc : PdfDoc) (ip : String) (pos : List JsNum) : PdfDoc :=
  match doc.pages with
  | [] => doc
  | p :: rest => { doc with pages := { p with images := p.images ++ [(ip, pos)] } :: rest }

/-- Append a `drawText` record to page 0. -/
def drawTextOnFirstPage (doc : PdfDoc) (t : String) (x y : Option JsNum) : PdfDoc :=
  match doc.pages with
  | [] => doc
  | p :: rest => { doc with pages := { p with texts := p.texts ++ [(t, x, y)] } :: rest }

/-- One iteration of `PDFModifier.addSignatures` (lines 330-392): always page
0; a `.png` / `.jpg` / `.jpeg` image source is read, embedded and drawn (any
thrown step caught and skipped), any other image extension silently does
nothing, a text source is drawn; a document without pages makes every item
throw on `page` access, caught per item. -/
def signatureStep (orc : PdfLibOracle) (acc : PdfDoc × Nat) (s : SignatureOptions) :
    PdfDoc × Nat :=
  let (doc, n) := acc
  if doc.pages.isEmpty then (doc, n)
  else
    match s.imagePath with
    | some ip =>
      if jsEndsWith (jsToLower ip) ".png" then
        if orc.readFileOk ip && orc.embedOk ip && orc.drawImageOk ip then
          (drawImageOnFirstPage doc ip s.position, n + 1)
        else (doc, n)
      else if jsEndsWith (jsToLower ip) ".jpg" || jsEndsWith (jsToLower ip) ".jpeg" then
        if orc.readFileOk ip && orc.embedOk ip && orc.drawImageOk ip then
          (drawImageOnFirstPage doc ip s.position, n + 1)
        else (doc, n)
      else (doc, n)
    | none =>
      match s.text with
      | some t =>
        if orc.drawTextOk t then
          (drawTextOnFirstPage doc t s.position[0]? s.position[1]?, n + 1)
        else (doc, n)
      | none => (doc, n)

/-- `PDFModifier.addSignatures` (lines 327-396). -/
def addSignatures (orc : PdfLibOracle) (doc : PdfDoc) (signatures : List SignatureOptions) :
    PdfDoc × Nat :=
  signatures.foldl (signatureStep orc) (doc, 0)

/-- Append a `drawText` record to the page at a concrete index. -/
def drawTextAt (doc : PdfDoc) (i : Nat) (t : String) (x y : Option JsNum) : PdfDoc :=
  match doc.pages[i]? with
  | none => doc
  | some p =>
    { doc with pages := doc.pages.set i { p with texts := p.texts ++ [(t, x, y)] } }

/-- One iteration of `PDFModifier.insertText` (lines 403-430): resolve
`pageNumber || 0`, skip (warn + `continue`) when that page does not exist,
otherwise draw; a thrown `drawText` is caught and skipped. -/
def insertTextStep (orc : PdfLibOracle) (acc : PdfDoc × Nat) (t : TextInsertion) :
    PdfDoc × Nat :=
  let (doc, n) := acc
  match jsIndex (pageOr0 t.pageNumber) doc.pages.length with
  | none => (doc, n)
  | some i =>
    if orc.drawTextOk t.text then (drawTextAt doc i t.text t.position[0]? t.position[1]?, n + 1)
    else (doc, n)

/-- `PDFModifier.insertText` (lines 398-433). -/
def insertText (orc : PdfLibOracle) (doc : PdfDoc) (items : List TextInsertion) :
    PdfDoc × Nat :=
  items.foldl (insertTextStep orc) (doc, 0)

/-- Append a `drawImage` record to the page at a concrete index. -/
def drawImageAt (doc : PdfDoc) (i : Nat) (ip : String) (pos : List JsNum) : PdfDoc :=
  match doc.pages[i]? with
  | none => doc
  | some p =>
    { doc with pages := doc.pages.set i { p with images := p.images ++ [(ip, pos)] } }

/-- One iteration of `PDFModifier.insertImages` (lines 440-479): skip when the
target page does not exist; then `readFileSync` (thrown → caught, skip), then
the extension dispatch (`.png` / `.jpg` / `.jpeg`, otherwise warn +
`continue`), then embed and draw (thrown → caught, skip). -/
def insertImagesStep (orc : PdfLibOracle) (acc : PdfDoc × Nat) (im : ImageInsertion) :
    PdfDoc × Nat :=
  let (doc, n) := acc
  match jsIndex (pageOr0 im.pageNumber) doc.pages.length with
  | none => (doc, n)
  | some i =>
    if ¬ orc.readFileOk im.imagePath then (doc, n)
    else if jsEndsWith (jsToLower im.imagePath) ".png"
        || jsEndsWith (jsToLower im.imagePath) ".jpg"
        || jsEndsWith (jsToLower im.imagePath) ".jpeg" then
      if orc.embedOk im.imagePath && orc.drawImageOk im.imagePath then
        (drawImageAt doc i im.imagePath im.position, n + 1)
      else (doc, n)
    else (doc, n)

/-- `PDFModifier.insertImages` (lines 435-483). -/
def insertImages (orc : PdfLibOracle) (doc : PdfDoc) (items : List ImageInsertion) :
    PdfDoc × Nat :=
  items.foldl (insertImagesStep orc) (doc, 0)

/-- The four edit phases of `modifyWithPdfLib` (lines 233-260) in their fixed
order — form fields, then signatures, then text, then images, each call
guarded by a non-emptiness test — returning the final document and the four
counts (formsFilled, signaturesAdded, textInserted, imagesInserted). -/
def applyEditPhases (orc : PdfLibOracle) (pdfDoc : PdfDoc)
    (signatures : List SignatureOptions) (formData : List FormFillData)
    (textInsertions : List TextInsertion) (imageInsertions : List ImageInsertion) :
    PdfDoc × Nat × Nat × Nat × Nat :=
  let r1 := if formData.length > 0 then fillForms orc pdfDoc formData else (pdfDoc, 0)
  let r2 := if signatures.length > 0 then addSignatures orc r1.1 signatures else (r1.1, 0)
  let r3 := if textInsertions.length > 0 then insertText orc r2.1 textInsertions
    else (r2.1, 0)
  let r4 := if imageInsertions.length > 0 then insertImages orc r3.1 imageInsertions
    else (r3.1, 0)
  (r4.1, r1.2, r2.2, r3.2, r4.2)

/-- `PDFModifier.modifyWithPdfLib` (lines 214-283): read and load the source
document, apply the four edit phases, then save and write.  A throw from
read/load propagates to `modifyPdf`; a throw from save/write is rethrown by
the inner `catch` and also propagates. -/
def modifyWithPdfLib (orc : PdfLibOracle) (fso : FsOracle)
    (inputPath outputPath : String)
    (signatures : List SignatureOptions) (formData : List FormFillData)
    (textInsertions : List TextInsertion) (imageInsertions : List ImageInsertion) :
    Except String PDFModificationResult :=
  match fso.readInput inputPath with
  | none => .error "readFileSync failed"
  | some bytes =>
    match fso.loadDoc bytes with
    | none => .error "PDFDocument.load failed"
    | some pdfDoc =>
      let phases := applyEditPhases orc pdfDoc signatures formData textInsertions imageInsertions
      match fso.saveDoc phases.1 with
      | none => .error "PDF modification failed: save threw"
      | some outBytes =>
        if fso.writeOutput outputPath outBytes then
          .ok { success := true
                modificationsApplied := phases.2.1 + phases.2.2.1 + phases.2.2.2.1
                  + phases.2.2.2.2
                signaturesAdded := phases.2.2.1
                formsFilled := phases.2.1
                textInsertions := phases.2.2.2.1
                imageInsertions := phases.2.2.2.2
                outputPath := outputPath
                processingTime := 0 }
        else .error "PDF modification failed: writeFileSync threw"

/-- `PDFModifier.modifyPdf` (lines 167-212): every exception from
`modifyWithPdfLib` is caught and turned into a failure outcome with all
counts 0, an empty output path and an error message; no exception escapes to
the caller. -/
def modifyPdf (orc : PdfLibOracle) (fso : FsOracle)
    (inputPath outputPath : String)
    (signatures : List SignatureOptions := []) (formData : List FormFillData := [])
    (textInsertions : List TextInsertion := []) (imageInsertions : List ImageInsertion := []) :
    PDFModificationResult :=
  match modifyWithPdfLib orc fso inputPath outputPath signatures formData
      textInsertions imageInsertions with
  | .ok r => r
  | .error e =>
    { success := false
      modificationsApplied := 0
      signaturesAdded := 0
      formsFilled := 0
      textInsertions := 0
      imageInsertions := 0
      outputPath := ""
      processingTime := 0
      errorMessage := some e }

end PDFModifier

namespace Cli

open PDFModifier

/-- Conversion of a `parseInt` result into the JavaScript number stored in a
`pageNumber` / `fontSize` field (`NaN` when no digits were parsed). -/
def jsNumOfParseInt (s : String) : JsNum :=
  match jsParseInt s with
  | some n => JsNum.int n
  | none => JsNum.nan

/-- The CLI options shared by the `modify` and `batch-modify` commands that
the verified properties depend on, with the defaults of the option table
(`src/cli.ts` lines 687-693 and 797-808). -/
structure ModifyOptions where
  addSignature : Option String := none
  signaturePosition : String := "400,700,500,750"
  fillForm : List String := []
  addText : Option String := none
  textPosition : String := "100,100"
  textPage : String := "0"
  fontSize : String := "12"
  allPages : Bool := false
deriving Repr, DecidableEq

/-- Signature-position parsing of the single-document `modify` action
(`src/cli.ts` lines 707-717): split on commas, `parseFloat` each trimmed
token, throw (`Signature position must be x1,y1,x2,y2`) iff the token count
is not 4.  Tokens are not checked for numericness: a non-numeric token simply
becomes `NaN`. -/
def modifySignatureParse (addSignature : Option String) (signaturePosition : String) :
    Except String (List SignatureOptions) :=
  match addSignature with
  | none => .ok []
  | some sigPath =>
    let positionParts := (jsSplit signaturePosition ',').map (fun x => jsParseFloat (jsTrim x))
    if positionParts.length ≠ 4 then .error "Signature position must be x1,y1,x2,y2"
    else .ok [{ position := positionParts, imagePath := some sigPath }]

/-- Form-fill option parsing, identical in the `modify` (lines 720-730) and
`batch-modify` (lines 864-873) actions: keep only strings containing a colon,
split at colons, the first token (trimmed) is the field name, the re-joined
rest (trimmed) is the value. -/
def parseFormOptions (fillForm : List String) : List FormFillData :=
  fillForm.foldl (fun acc formItem =>
    if jsIncludes formItem ':' then
      match jsSplit formItem ':' with
      | [] => acc
      | fieldName :: valueParts =>
        acc ++ [{ fieldName := jsTrim fieldName
                  fieldValue := jsTrim (String.intercalate ":" valueParts) }]
    else acc) []

/-- Text-insertion parsing of the single-document `modify` action (lines
733-745): split on commas, `parseFloat` each trimmed token, throw
(`Text position must be x,y`) iff the token count is not 2. -/
def modifyTextParse (addText : Option String) (textPosition textPage fontSize : String) :
    Except String (List TextInsertion) :=
  match addText with
  | none => .ok []
  | some txt =>
    let positionParts := (jsSplit textPosition ',').map (fun x => jsParseFloat (jsTrim x))
    if positionParts.length ≠ 2 then .error "Text position must be x,y"
    else .ok [{ text := txt
                position := positionParts
                pageNumber := some (jsNumOfParseInt textPage)
                fontSize := some (jsNumOfParseInt fontSize) }]

/-- The full option parsing of the `modify` action, in source order:
signature, then form fills, then text. -/
def modifyParseRequest (o : ModifyOptions) :
    Except String (List SignatureOptions × List FormFillData × List TextInsertion) := do
  let sigs ← modifySignatureParse o.addSignature o.signaturePosition
  let forms := parseFormOptions o.fillForm
  let texts ← modifyTextParse o.addText o.textPosition o.textPage o.fontSize
  return (sigs, forms, texts)

/-- The `modifications` object of the `batch-modify` action.  Every key may be
absent, mirroring a JavaScript object, so that the spread merge
`{ ...mods, ...template }` and the `Object.keys(mods).length === 0` test can
be embedded key-for-key. -/
structure BatchMods where
  signatures : Option (List SignatureOptions) := none
  formData : Option (List FormFillData) := none
  textInsertions : Option (List TextInsertion) := none
  allPages : Option Bool := none
deriving Repr, DecidableEq

/-- JavaScript spread merge `{ ...a, ...b }` on the keys of `BatchMods`: a key
present in `b` replaces the key of `a` wholesale. -/
def spreadMerge (a b : BatchMods) : BatchMods :=
  { signatures := b.signatures.orElse (fun _ => a.signatures)
    formData := b.formData.orElse (fun _ => a.formData)
    textInsertions := b.textInsertions.orElse (fun _ => a.textInsertions)
    allPages := b.allPages.orElse (fun _ => a.allPages) }

/-- `Object.keys(modifications).length === 0`. -/
def BatchMods.isEmptyObject (m : BatchMods) : Bool :=
  m.signatures.isNone && m.formData.isNone && m.textInsertions.isNone && m.allPages.isNone

/-- Total number of edits of a `BatchMods` (signatures + form fills + text
insertions, absent keys contributing nothing). -/
def BatchMods.editCount (m : BatchMods) : Nat :=
  (m.signatures.getD []).length + (m.formData.getD []).length
    + (m.textInsertions.getD []).length

/-- The wall-clock values the template catalog reads:
`new Date().toISOString().split("T")[0]` (the ISO date) and
`new Date().toTimeString().split(" ")[0]` (the time of day). -/
structure JsDate where
  isoDate : String
  timeOfDay : String
deriving Repr, DecidableEq

/-- `loadModificationTemplate` (`src/cli.ts` lines 986-1037): the fixed
catalog of four templates, evaluated against the current wall clock; an
unknown name yields `undefined`. -/
def loadModificationTemplate (templateName : String) (now : JsDate) : Option BatchMods :=
  if templateName = "approval-stamp" then
    let t1 : PDFModifier.TextInsertion :=
      { text := "APPROVED", position := [JsNum.int 450, JsNum.int 50],
        fontSize := some (JsNum.int 16) }
    let t2 : PDFModifier.TextInsertion :=
      { text := "Date: " ++ now.isoDate, position := [JsNum.int 450, JsNum.int 30],
        fontSize := some (JsNum.int 10) }
    some { textInsertions := some [t1, t2] }
  else if templateName = "confidential-watermark" then
    let t1 : PDFModifier.TextInsertion :=
      { text := "CONFIDENTIAL", position := [JsNum.int 200, JsNum.int 400],
        fontSize := some (JsNum.int 48) }
    some { textInsertions := some [t1], allPages := some true }
  else if templateName = "signature-bottom-right" then
    let s1 : PDFModifier.SignatureOptions :=
      { position := [JsNum.int 400, JsNum.int 50, JsNum.int 500, JsNum.int 100],
        text := some "Authorized Signature" }
    some { signatures := some [s1] }
  else if templateName = "review-stamp" then
    let t1 : PDFModifier.TextInsertion :=
      { text := "REVIEWED", position := [JsNum.int 50, JsNum.int 50],
        fontSize := some (JsNum.int 12) }
    let t2 : PDFModifier.TextInsertion :=
      { text := "Agent 2 - " ++ now.isoDate ++ " " ++ now.timeOfDay,
        position := [JsNum.int 50, JsNum.int 30], fontSize := some (JsNum.int 8) }
    some { textInsertions := some [t1, t2] }
  else none

/-- Signature building of the `batch-modify` CLI fallback (lines 856-862):
unlike the `modify` action there is no token-count check at all. -/
def batchSignatureParse (addSignature : Option String) (signaturePosition : String) :
    List SignatureOptions :=
  match addSignature with
  | none => []
  | some p =>
    [{ position := (jsSplit signaturePosition ',').map (fun x => jsParseFloat (jsTrim x))
       imagePath := some p }]

/-- Text building of the `batch-modify` CLI fallback (lines 875-883), again
with no token-count check. -/
def batchTextParse (addText : Option String) (textPosition textPage fontSize : String) :
    List TextInsertion :=
  match addText with
  | none => []
  | some txt =>
    [{ text := txt
       position := (jsSplit textPosition ',').map (fun x => jsParseFloat (jsTrim x))
       pageNumber := some (jsNumOfParseInt textPage)
       fontSize := some (jsNumOfParseInt fontSize) }]

/-- The `modifications` object built from explicit CLI flags (lines 851-886);
note every key is present here, including `allPages`. -/
def cliBatchMods (o : ModifyOptions) : BatchMods :=
  { signatures := some (batchSignatureParse o.addSignature o.signaturePosition)
    formData := some (parseFormOptions o.fillForm)
    textInsertions := some (batchTextParse o.addText o.textPosition o.textPage o.fontSize)
    allPages := some o.allPages }

/-- Request building of the `batch-modify` action (`src/cli.ts` lines
832-848): start from `{}`, replace it wholesale by the parsed JSON config if
one was given, then spread-merge a resolved template over it (template keys
override config keys; an unknown template only logs a warning). -/
def mergedBatchMods (config : Option BatchMods) (templateName : Option String)
    (now : JsDate) : BatchMods :=
  let m1 := match config with
    | some c => c
    | none => {}
  match templateName with
  | some name =>
    match loadModificationTemplate name now with
    | some tc => spreadMerge m1 tc
    | none => m1
  | none => m1

/-- Request building of the `batch-modify` action, continued: only if the
merged object still has no keys at all (`Object.keys(modifications).length
=== 0`, line 851) is it built from the explicit CLI flags. -/
def buildBatchModifications (config : Option BatchMods) (templateName : Option String)
    (o : ModifyOptions) (now : JsDate) : BatchMods :=
  let m2 := mergedBatchMods config templateName now
  if m2.isEmptyObject then cliBatchMods o else m2

/-- The text-insertion expansion at the core of `applyModificationsAllPages`
(`src/cli.ts` lines 1079-1092): one copy of every base text insertion per
page index `0 .. pageCount-1`; each copy is rebuilt from only the `text`,
`position` and `fontSize` fields of its source (the source `pageNumber` is
replaced and any `color` / `fontName` is dropped). -/
def expandAllPagesText (base : List TextInsertion) (pageCount : Nat) : List TextInsertion :=
  (List.range pageCount).flatMap (fun pageNum =>
    base.map (fun textItem =>
      { text := textItem.text
        position := textItem.position
        pageNumber := some (JsNum.int pageNum)
        fontSize := textItem.fontSize }))

/-- `applyModificationsAllPages` (`src/cli.ts` lines 1070-1102): reopen the
document to discover its page count (a thrown read/load propagates to the
per-file handler of the batch loop), expand the text insertions against it,
then call `modifyPdf` with signatures and form data passed through
unchanged (and no image insertions). -/
def applyModificationsAllPages (orc : PdfLibOracle) (fso : FsOracle)
    (inputPath outputPath : String) (modifications : BatchMods) :
    Except String PDFModificationResult :=
  match fso.readInput inputPath with
  | none => .error "readFileSync failed"
  | some bytes =>
    match fso.loadDoc bytes with
    | none => .error "PDFDocument.load failed"
    | some pdfDoc =>
      let allTextInsertions :=
        expandAllPagesText (modifications.textInsertions.getD []) pdfDoc.pages.length
      .ok (modifyPdf orc fso inputPath outputPath
        (modifications.signatures.getD []) (modifications.formData.getD [])
        allTextInsertions)

/-- Model of Node `path.basename`: the part after the last slash. -/
def basename (p : String) : String :=
  ((p.toList.reverse.takeWhile (fun c => c ≠ '/')).reverse).asString

/-- One per-file record of the batch `results` array (lines 920-922 and
953-962): `status` is the literal string pushed by the source. -/
structure FileReport where
  file : String
  status : String
  modifications : Option Nat := none
  time : Option Nat := none
  error : Option String := none
deriving Repr, DecidableEq

/-- The per-file try-body shared verbatim by the parallel (lines 902-927) and
sequential (lines 935-964) branches of `batch-modify`: build the output path,
dispatch on `options.allPages && modifications.textInsertions?.length > 0`,
and turn the outcome (or a thrown exception) into a `FileReport`. -/
def processBatchFile (orc : PdfLibOracle) (fso : FsOracle) (outputDir : String)
    (options : ModifyOptions) (modifications : BatchMods) (file : String) : FileReport :=
  let outputFile := outputDir ++ "/" ++ basename file
  let run : Except String PDFModificationResult :=
    if options.allPages ∧ (modifications.textInsertions.getD []).length > 0 then
      applyModificationsAllPages orc fso file outputFile modifications
    else
      .ok (modifyPdf orc fso file outputFile
        (modifications.signatures.getD []) (modifications.formData.getD [])
        (modifications.textInsertions.getD []))
  match run with
  | .error msg => { file := basename file, status := "failed", error := some msg }
  | .ok result =>
    if result.success then
      { file := basename file, status := "success"
        modifications := some result.modificationsApplied
        time := some result.processingTime }
    else
      { file := basename file, status := "failed", error := result.errorMessage }

/-- The parallel branch (lines 899-931): `files.map` creates one promise per
file and `Promise.all` resolves to their results in the order of the input
array, which a single `results.push(...)` appends. -/
def parallelResults (orc : PdfLibOracle) (fso : FsOracle) (outputDir : String)
    (options : ModifyOptions) (modifications : BatchMods) (files : List String) :
    List FileReport :=
  files.map (processBatchFile orc fso outputDir options modifications)

/-- The sequential branch (lines 933-965): one file at a time, each report
pushed immediately. -/
def sequentialResults (orc : PdfLibOracle) (fso : FsOracle) (outputDir : String)
    (options : ModifyOptions) (modifications : BatchMods) (files : List String) :
    List FileReport :=
  files.foldl
    (fun results file => results ++ [processBatchFile orc fso outputDir options modifications file])
    []

/-- The strategy dispatch (line 899): the parallel branch runs only when
requested and more than one file was discovered. -/
def batchResults (parallel : Bool) (orc : PdfLibOracle) (fso : FsOracle) (outputDir : String)
    (options : ModifyOptions) (modifications : BatchMods) (files : List String) :
    List FileReport :=
  if parallel ∧ files.length > 1 then
    parallelResults orc fso outputDir options modifications files
  else
    sequentialResults orc fso outputDir options modifications files

/-- The summary of the batch action (lines 967-977): successful count, failed
count, and the total of applied modifications over successful files. -/
def batchSummary (results : List FileReport) : Nat × Nat × Nat :=
  let successful := (results.filter (fun r => r.status = "success")).length
  let failed := results.length - successful
  let totalModifications := (results.filter (fun r => r.status = "success")).foldl
    (fun sum r => sum + r.modifications.getD 0) 0
  (successful, failed, totalModifications)

/-- Exit code of the `batch-modify` action: the only `process.exit(1)` sits in
the outer `catch` (lines 979-982), reached when the preparation phase
(directory scan, config parse, request building) throws; the summary path
never exits, whatever the per-file reports contain. -/
def batchModifyExitCode (prep : Except String Unit) (_results : List FileReport) : Nat :=
  match prep with
  | .error _ => 1
  | .ok _ => 0

/-- Exit code of the single-document `modify` action (lines 694-789): 1 when
the option parsing throws (lines 785-788) or the one document's modification
fails (lines 780-783); 0 when it succeeds or when no modifications were
specified at all (the early `return` of lines 747-750). -/
def modifyActionExitCode (orc : PdfLibOracle) (fso : FsOracle)
    (input output : String) (o : ModifyOptions) : Nat :=
  match modifyParseRequest o with
  | .error _ => 1
  | .ok (sigs, forms, texts) =>
    if sigs.length = 0 ∧ forms.length = 0 ∧ texts.length = 0 then 0
    else if (modifyPdf orc fso input output sigs forms texts).success then 0 else 1

/-- The batch action resolves the request — including any template, hence any
embedded wall-clock text — once, before the per-file loop (`src/cli.ts` lines
832-886 run before lines 899-965); every file is then processed against that
one value.  The clock argument makes the timing explicit: the request is
built from `clock 0`, and the i-th file is only opened afterwards. -/
def batchEditSetsPerFile (config : Option BatchMods) (templateName : Option String)
    (o : ModifyOptions) (clock : Nat → JsDate) (files : List String) :
    List (String × BatchMods) :=
  let modifications := buildBatchModifications config templateName o (clock 0)
  files.map (fun f => (f, modifications))

end Cli

namespace PdfParser

/-- A caller-supplied `PdfConfig` object (`src/types.ts` lines 1-9): every key
may be absent. -/
structure PdfConfigInput where
  extractMetadata : Option Bool := none
  extractImages : Option Bool := none
  includePageInfo : Option Bool := none
  outputFormat : Option String := none
  safetyChecks : Option Bool := none
  maxPages : Option Nat := none
  password : Option String := none
deriving Repr, DecidableEq

/-- The parser configuration after the constructor merge `{ defaults,
...config }` (`src/pdf-parser.ts` lines 10-21). -/
structure PdfConfig where
  extractMetadata : Bool
  extractImages : Bool
  includePageInfo : Bool
  outputFormat : String
  safetyChecks : Bool
  maxPages : Option Nat := none
  password : Option String := none
deriving Repr, DecidableEq

/-- The `PdfParser` constructor (`src/pdf-parser.ts` lines 10-21): defaults
`extractMetadata: true, extractImages: false, includePageInfo: false,
outputFormat: "text", safetyChecks: true`, overridden by any key the caller
provided. -/
def mkConfig (c : PdfConfigInput) : PdfConfig :=
  { extractMetadata := c.extractMetadata.getD true
    extractImages := c.extractImages.getD false
    includePageInfo := c.includePageInfo.getD false
    outputFormat := c.outputFormat.getD "text"
    safetyChecks := c.safetyChecks.getD true
    maxPages := c.maxPages
    password := c.password }

/-- Document metadata as the parser surfaces it.  The field-by-field copying
and date parsing of `extractMetadata` (`src/pdf-parser.ts` lines 86-128) is
presentation-only and orthogonal to every claim, so the info dictionary is
embedded as an abstract token carried through unchanged. -/
abbrev PdfMetadata := Nat

/-- `PageInfo` (`src/types.ts` lines 24-31), restricted to the fields the
parser actually fills (lines 136-142 of `src/pdf-parser.ts`). -/
structure PageInfo where
  pageNumber : Int
  content : String
deriving Repr, DecidableEq

/-- `PdfData` (`src/types.ts` lines 33-39; the `images` key is never set). -/
structure PdfData where
  text : String
  totalPages : Int
  metadata : Option PdfMetadata := none
  pages : Option (List PageInfo) := none
deriving Repr, DecidableEq

/-- `ProcessingResult` (`src/types.ts` lines 41-48); `processingTime` is
wall-clock and embedded as 0 when set. -/
structure ProcessingResult where
  success : Bool
  data : Option PdfData := none
  metadata : Option PdfMetadata := none
  warnings : List String := []
  errors : List String := []
  processingTime : Option Nat := none
deriving Repr, DecidableEq

/-- Outcome of `SafetyManager.validateFile` as `parseFile` consumes it. -/
structure SafetyResult where
  isSafe : Bool
  issues : List String
  hash : String := ""
  fileSize : Nat := 0
deriving Repr, DecidableEq

/-- The result object of the external `pdf-parse` call: extracted text, page
count, info dictionary. -/
structure RawPdf where
  text : String
  numpages : Nat
  info : Option PdfMetadata := none
deriving Repr, DecidableEq

/-- `PdfParser.splitTextIntoPages` (`src/pdf-parser.ts` lines 147-170): a
single page is the whole text; otherwise split at form feeds when that yields
exactly `pageCount` pieces, else slice into `pageCount` chunks of
`Math.ceil(length / pageCount)` characters. -/
def splitTextIntoPages (text : String) (pageCount : Nat) : List String :=
  if pageCount = 1 then [text]
  else
    let formFeedPages := jsSplit text '\x0c'
    if formFeedPages.length = pageCount then formFeedPages
    else
      let len := text.toList.length
      let avgLength := (len + pageCount - 1) / pageCount
      (List.range pageCount).map (fun i =>
        let start := i * avgLength
        let stop := min ((i + 1) * avgLength) len
        ((text.toList.drop start).take (stop - start)).asString)

/-- `PdfParser.extractPageInfo` (lines 130-145): number the split pages from
1. -/
def extractPageInfo (text : String) (numpages : Nat) : List PageInfo :=
  (splitTextIntoPages text numpages).enum.map
    (fun p => { pageNumber := (p.1 : Int) + 1, content := p.2 })

/-- `PdfParser.parseFile` (`src/pdf-parser.ts` lines 23-84), with the two
external effects as explicit inputs: the safety-validation outcome, and the
combined `readFileSync` + `pdfParse` outcome (`Except.error` = thrown, caught
by the surrounding `try` and recorded as a `Parsing failed` error). -/
def parseFile (cfg : PdfConfig) (safety : SafetyResult) (parsed : Except String RawPdf) :
    ProcessingResult :=
  if cfg.safetyChecks ∧ safety.isSafe = false then
    { success := false, errors := safety.issues }
  else
    match parsed with
    | .error e => { success := false, errors := ["Parsing failed: " ++ e] }
    | .ok raw =>
      let parsedData : PdfData :=
        { text := raw.text
          totalPages := (raw.numpages : Int)
          metadata := if cfg.extractMetadata then raw.info else none
          pages := if cfg.includePageInfo then some (extractPageInfo raw.text raw.numpages)
            else none }
      { success := true
        data := some parsedData
        metadata := parsedData.metadata
        processingTime := some 0 }

/-- `PdfParser.extractPages` (lines 279-298): parse the file, throw
(`Failed to parse PDF`) unless it succeeded with data, return the whole text
when per-page info was not produced, otherwise select the pages of the parsed
range and join them with blank lines. -/
def extractPages (cfg : PdfConfig) (safety : SafetyResult) (parsed : Except String RawPdf)
    (pageRange : String) : Except String String :=
  let result := parseFile cfg safety parsed
  match result.success, result.data with
  | true, some data =>
    match data.pages with
    | none => .ok data.text
    | some pagesInfo =>
      let pages := parsePageRange pageRange data.totalPages
      let selectedPages := pages.filterMap (fun pageNum =>
        (pagesInfo.find? (fun p => p.pageNumber = pageNum)).map (fun p => p.content))
      .ok (String.intercalate "\n\n" selectedPages)
  | _, _ => .error "Failed to parse PDF"

end PdfParser

/-- Specification-side statement of the hard-failure condition of claim C7,
written from the spec's words for comparison with the implementation: the
source document cannot be read or parsed, or the output cannot be persisted
(the save or the write of the final document throws). -/
def specHardFailure (orc : PDFModifier.PdfLibOracle) (fso : PDFModifier.FsOracle)
    (inp outp : String)
    (sigs : List PDFModifier.SignatureOptions) (forms : List PDFModifier.FormFillData)
    (texts : List PDFModifier.TextInsertion) (imgs : List PDFModifier.ImageInsertion) : Bool :=
  match fso.readInput inp with
  | none => true
  | some bytes =>
    match fso.loadDoc bytes with
    | none => true
    | some doc =>
      match fso.saveDoc (PDFModifier.applyEditPhases orc doc sigs forms texts imgs).1 with
      | none => true
      | some b => ! fso.writeOutput outp b

/-!
Theorems.  Helper lemmas come first, then for each claim its theorem
(and, where needed, its witness and counterexample).
-/

theorem addRangeAux_mem (n : Nat) : ∀ (pages : List Int) (i x : Int),
    x ∈ PdfParser.addRangeAux pages i n → x ∈ pages ∨ (i ≤ x ∧ x < i + n) := by
  induction n with
  | zero => exact fun pages i x h => Or.inl h
  | succ n ih =>
    intro pages i x h
    have h' := ih (if i ∈ pages then pages else pages ++ [i]) (i + 1) x h
    by_cases hm : i ∈ pages
    · simp only [if_pos hm] at h'
      rcases h' with h' | h'
      · exact Or.inl h'
      · right; omega
    · simp only [if_neg hm, List.mem_append, List.mem_singleton] at h'
      rcases h' with (h' | rfl) | h'
      · exact Or.inl h'
      · right; omega
      · right; omega

theorem addRangeAux_nodup (n : Nat) : ∀ (pages : List Int) (i : Int),
    pages.Nodup → (PdfParser.addRangeAux pages i n).Nodup := by
  induction n with
  | zero => exact fun pages i h => h
  | succ n ih =>
    intro pages i h
    show (PdfParser.addRangeAux (if i ∈ pages then pages else pages ++ [i]) (i + 1) n).Nodup
    by_cases hm : i ∈ pages
    · simpa [hm] using ih pages (i + 1) h
    · refine ih _ _ ?_
      rw [if_neg hm]
      simpa [List.nodup_append, h] using hm

theorem addRange_mem (pages : List Int) (i bound x : Int)
    (h : x ∈ PdfParser.addRange pages i bound) : x ∈ pages ∨ (i ≤ x ∧ x ≤ bound) := by
  rcases addRangeAux_mem _ _ _ _ h with h' | h'
  · exact Or.inl h'
  · right; omega

theorem processToken_mem (T : Int) (pages : List Int) (part : String) (x : Int)
    (h : x ∈ PdfParser.processToken T pages part) : x ∈ pages ∨ x ≤ T := by
  unfold PdfParser.processToken at h
  dsimp only at h
  split at h
  · split at h
    · rcases addRange_mem _ _ _ _ h with h' | h'
      · exact Or.inl h'
      · exact Or.inr (le_trans h'.2 (min_le_right _ _))
    · exact Or.inl h
  · split at h
    · split at h
      · rename_i n _ hcond
        rcases List.mem_append.1 h with h' | h'
        · exact Or.inl h'
        · rw [List.mem_singleton] at h'
          exact Or.inr (h' ▸ hcond.2.1)
      · exact Or.inl h
    · exact Or.inl h

theorem processToken_nodup (T : Int) (pages : List Int) (part : String)
    (h : pages.Nodup) : (PdfParser.processToken T pages part).Nodup := by
  unfold PdfParser.processToken
  dsimp only
  split
  · split
    · exact addRangeAux_nodup _ _ _ h
    · exact h
  · split
    · split
      · rename_i n _ hcond
        simpa [List.nodup_append, h] using hcond.2.2
      · exact h
    · exact h

theorem foldl_processToken_inv (T : Int) (parts : List String) :
    ∀ pages : List Int, pages.Nodup → (∀ x ∈ pages, x ≤ T) →
      (parts.foldl (PdfParser.processToken T) pages).Nodup ∧
        ∀ x ∈ parts.foldl (PdfParser.processToken T) pages, x ≤ T := by
  induction parts with
  | nil => exact fun pages h1 h2 => ⟨h1, h2⟩
  | cons p ps ih =>
    intro pages h1 h2
    refine ih _ (processToken_nodup T pages p h1) ?_
    intro x hx
    rcases processToken_mem T pages p x hx with h | h
    · exact h2 x h
    · exact h

/-- Claim C4 (amended): for every range spec string and every `totalPages`,
`parsePageRange` returns a strictly ascending, duplicate-free list of page
numbers in which no value exceeds `totalPages`; a bare number `n` is included
only if `1 ≤ n ≤ totalPages`, a dash token `a-b` is the closed range clipped
above to `min(b, totalPages)` (a degenerate range like `5-3` contributes
nothing), so `parsePageRange("5-3,2", 10) = [2]` and
`parsePageRange("1,3,5-7,100", 6) = [1,3,5,6]`.  Unlike the original claim,
the lower end of a dash range is not clipped to 1, so values below 1 can
appear (see the counterexample). -/
theorem C4_parsePageRange_sorted_dedup_le :
    (∀ (range : String) (totalPages : Int),
      (PdfParser.parsePageRange range totalPages).Sorted (· < ·) ∧
      (PdfParser.parsePageRange range totalPages).Nodup ∧
      ∀ x ∈ PdfParser.parsePageRange range totalPages, x ≤ totalPages) ∧
    PdfParser.parsePageRange "5-3,2" 10 = [2] ∧
    PdfParser.parsePageRange "1,3,5-7,100" 6 = [1, 3, 5, 6] := by
  refine ⟨fun range totalPages => ?_, by decide, by decide⟩
  have hinv := foldl_processToken_inv totalPages (jsSplit range ',') []
    (by simp) (by simp)
  unfold PdfParser.parsePageRange
  dsimp only
  have hperm := List.perm_insertionSort (· ≤ ·)
    ((jsSplit range ',').foldl (PdfParser.processToken totalPages) [])
  have hnodup := hperm.nodup_iff.2 hinv.1
  have hsorted := List.sorted_insertionSort (· ≤ ·)
    ((jsSplit range ',').foldl (PdfParser.processToken totalPages) [])
  exact ⟨hsorted.lt_of_le hnodup, hnodup, fun x hx => hinv.2 x (hperm.mem_iff.1 hx)⟩

/-- Claim C4 witness: the general part of the theorem evaluated at the spec's
own example input, with the membership hypothesis discharged concretely. -/
theorem C4_parsePageRange_sorted_dedup_le_witness :
    (PdfParser.parsePageRange "1,3,5-7,100" 6).Sorted (· < ·) ∧ (6 : Int) ≤ 6 :=
  ⟨(C4_parsePageRange_sorted_dedup_le.1 "1,3,5-7,100" 6).1,
   (C4_parsePageRange_sorted_dedup_le.1 "1,3,5-7,100" 6).2.2 6 (by decide)⟩

/-- Claim C4 counterexample: the original claim says the output contains no
value outside `[1, totalPages]`, but the dash-range loop starts at the parsed
lower bound without clipping it to 1: `parsePageRange("0-2", 10)` returns
`[0, 1, 2]`, and `0` lies outside `[1, 10]`. -/
theorem C4_parsePageRange_counterexample :
    PdfParser.parsePageRange "0-2" 10 = [0, 1, 2] ∧ (0 : Int) < 1 := by decide

theorem spreadMerge_emptyLeft (tc : Cli.BatchMods) : Cli.spreadMerge {} tc = tc := by
  cases tc with
  | mk s f t a => cases s <;> cases f <;> cases t <;> cases a <;> rfl

/-- Claim C1 (amended): the batch request builder is override-based, not
additive.  Whenever the JSON config and/or the template contributed at least
one key, the explicit CLI flags are ignored entirely (first conjunct: the
built request does not depend on the CLI options at all); with no config, a
resolved non-empty template is the request verbatim (second conjunct), so a
template plus an ad-hoc `--add-text` yields exactly the template's edit
count; the CLI flags are consumed only when neither source contributed a key
(third conjunct). -/
theorem C1_buildBatch_override :
    (∀ (config : Option Cli.BatchMods) (templateName : Option String)
        (o o' : Cli.ModifyOptions) (now : Cli.JsDate),
      (Cli.mergedBatchMods config templateName now).isEmptyObject = false →
      Cli.buildBatchModifications config templateName o now
        = Cli.buildBatchModifications config templateName o' now) ∧
    (∀ (name : String) (o : Cli.ModifyOptions) (now : Cli.JsDate) (tc : Cli.BatchMods),
      Cli.loadModificationTemplate name now = some tc →
      tc.isEmptyObject = false →
      Cli.buildBatchModifications none (some name) o now = tc) ∧
    (∀ (o : Cli.ModifyOptions) (now : Cli.JsDate),
      Cli.buildBatchModifications none none o now = Cli.cliBatchMods o) := by
  refine ⟨fun config templateName o o' now h => ?_, fun name o now tc hload hne => ?_,
    fun o now => rfl⟩
  · unfold Cli.buildBatchModifications
    simp [h]
  · have hmerged : Cli.mergedBatchMods none (some name) now = tc := by
      unfold Cli.mergedBatchMods
      simp [hload, spreadMerge_emptyLeft]
    unfold Cli.buildBatchModifications
    simp [hmerged, hne]

/-- Claim C1 witness: the first conjunct applied with the `approval-stamp`
template, once with an ad-hoc `--add-text X` flag and once without any CLI
flag, discharging the non-emptiness hypothesis by computation. -/
theorem C1_buildBatch_override_witness :
    Cli.buildBatchModifications none (some "approval-stamp")
        { addText := some "X" } { isoDate := "2026-10-11", timeOfDay := "12:00:00" }
      = Cli.buildBatchModifications none (some "approval-stamp")
        {} { isoDate := "2026-10-11", timeOfDay := "12:00:00" } :=
  C1_buildBatch_override.1 none (some "approval-stamp") { addText := some "X" } {}
    { isoDate := "2026-10-11", timeOfDay := "12:00:00" } (by decide)

/-- Claim C1 counterexample: the `approval-stamp` template has 2 edits, and
building the batch request from that template plus one ad-hoc `--add-text`
flag yields a request with 2 edits — not the 2 + 1 the claim requires,
because the CLI flag is ignored once the template made the modifications
object non-empty. -/
theorem C1_buildBatch_counterexample :
    (Cli.buildBatchModifications none (some "approval-stamp")
        { addText := some "X" }
        { isoDate := "2026-10-11", timeOfDay := "12:00:00" }).editCount = 2 ∧
    ((Cli.loadModificationTemplate "approval-stamp"
        { isoDate := "2026-10-11", timeOfDay := "12:00:00" }).getD {}).editCount = 2 ∧
    ¬ (Cli.buildBatchModifications none (some "approval-stamp")
        { addText := some "X" }
        { isoDate := "2026-10-11", timeOfDay := "12:00:00" }).editCount
      = ((Cli.loadModificationTemplate "approval-stamp"
          { isoDate := "2026-10-11", timeOfDay := "12:00:00" }).getD {}).editCount + 1 := by
  decide

/-- Claim C2 (amended): with the (request-wide) all-pages flag in effect, the
expansion replaces the text-edit list by exactly `pageCount` copies of every
text edit — `pageCount * base.length` edits in total, and for every page index
`p < pageCount` and every source edit exactly its copy at `p`, carrying the
source's `text`, `position` and `fontSize`; every output edit is such a copy.
Unlike the original claim the copies are not identical to the source in all
other fields: the rebuild keeps only `text`, `position` and `fontSize`, so an
optional `color` or `fontName` of the source (possible via a JSON config) is
dropped, and the source's own `pageNumber` is replaced.  The source edit list
itself is an unchanged input of the expansion (each document gets its own
expanded list computed from it).  Signatures and form edits are passed
through `applyModificationsAllPages` unchanged. -/
theorem C2_expandAllPages :
    (∀ (base : List PDFModifier.TextInsertion) (pageCount : Nat),
      (Cli.expandAllPagesText base pageCount).length = pageCount * base.length ∧
      (∀ e ∈ Cli.expandAllPagesText base pageCount, ∃ p < pageCount, ∃ t ∈ base,
        e = { text := t.text, position := t.position
              pageNumber := some (JsNum.int p), fontSize := t.fontSize }) ∧
      (∀ p < pageCount, ∀ t ∈ base,
        ({ text := t.text, position := t.position
           pageNumber := some (JsNum.int p), fontSize := t.fontSize }
          : PDFModifier.TextInsertion) ∈ Cli.expandAllPagesText base pageCount)) ∧
    (∀ t : PDFModifier.TextInsertion,
      Cli.expandAllPagesText [t] 4 =
        [{ text := t.text, position := t.position
           pageNumber := some (JsNum.int 0), fontSize := t.fontSize },
         { text := t.text, position := t.position
           pageNumber := some (JsNum.int 1), fontSize := t.fontSize },
         { text := t.text, position := t.position
           pageNumber := some (JsNum.int 2), fontSize := t.fontSize },
         { text := t.text, position := t.position
           pageNumber := some (JsNum.int 3), fontSize := t.fontSize }]) := by
  refine ⟨fun base pageCount => ⟨?_, ?_, ?_⟩, fun t => rfl⟩
  · simp only [Cli.expandAllPagesText, List.length_flatMap, Function.comp_def, List.length_map]
    induction pageCount with
    | zero => simp
    | succ n ih => simp [List.range_succ, ih, Nat.succ_mul]
  · intro e he
    simp only [Cli.expandAllPagesText, List.mem_flatMap, List.mem_range, List.mem_map] at he
    obtain ⟨p, hp, t, ht, rfl⟩ := he
    exact ⟨p, hp, t, ht, rfl⟩
  · intro p hp t ht
    simp only [Cli.expandAllPagesText, List.mem_flatMap, List.mem_range, List.mem_map]
    exact ⟨p, hp, t, ht, rfl⟩

/-- Claim C2 witness: the general part applied to a one-edit list against a
4-page document (the spec's own count-exactness example), with the hypotheses
discharged concretely. -/
theorem C2_expandAllPages_witness :
    ({ text := "CONFIDENTIAL", position := [JsNum.int 200, JsNum.int 400]
       pageNumber := some (JsNum.int 2)
       fontSize := some (JsNum.int 48) } : PDFModifier.TextInsertion)
      ∈ Cli.expandAllPagesText
          [{ text := "CONFIDENTIAL", position := [JsNum.int 200, JsNum.int 400]
             fontSize := some (JsNum.int 48) }] 4 :=
  (C2_expandAllPages.1
      [{ text := "CONFIDENTIAL", position := [JsNum.int 200, JsNum.int 400]
         fontSize := some (JsNum.int 48) }] 4).2.2 2 (by decide)
    { text := "CONFIDENTIAL", position := [JsNum.int 200, JsNum.int 400]
      fontSize := some (JsNum.int 48) } (by decide)

/-- Claim C2 counterexample: the original claim says each copy is identical to
the source edit in all fields other than the page index, but expanding a text
edit that carries a `color` yields a copy with no `color` (the rebuild keeps
only `text`, `position` and `fontSize`). -/
theorem C2_expandAllPages_counterexample :
    (Cli.expandAllPagesText
        [{ text := "T", position := [JsNum.int 0, JsNum.int 0]
           color := some (JsNum.int 1, JsNum.int 0, JsNum.int 0) }] 1).map
      (fun e => e.color) = [none] ∧
    ({ text := "T", position := [JsNum.int 0, JsNum.int 0]
       color := some (JsNum.int 1, JsNum.int 0, JsNum.int 0) }
      : PDFModifier.TextInsertion).color ≠ none := by decide

/-- Claim C5 (amended): the single-document `modify` path throws
`Signature position must be x1,y1,x2,y2` exactly when the position string
does not split at commas into exactly 4 tokens — the tokens are not checked
for numericness, a non-numeric token simply becomes a `NaN` coordinate — so
`parseBox("400,700,500")` fails and `parseBox("400,700,500,750")` succeeds
with the four numbers there; the `batch-modify` path however performs no
validation at all and pushes a signature whatever the token count. -/
theorem C5_parseBox_validation :
    (∀ (p s : String),
      (Cli.modifySignatureParse (some p) s
          = Except.error "Signature position must be x1,y1,x2,y2")
        ↔ (jsSplit s ',').length ≠ 4) ∧
    (∀ (p s : String), (Cli.batchSignatureParse (some p) s).length = 1) ∧
    Cli.modifySignatureParse (some "sig.png") "400,700,500"
      = Except.error "Signature position must be x1,y1,x2,y2" ∧
    Cli.modifySignatureParse (some "sig.png") "400,700,500,750"
      = Except.ok [{ position := [JsNum.int 400, JsNum.int 700, JsNum.int 500, JsNum.int 750]
                     imagePath := some "sig.png" }] := by
  refine ⟨fun p s => ?_, fun p s => rfl, by decide, by decide⟩
  unfold Cli.modifySignatureParse
  dsimp only
  rw [List.length_map]
  by_cases h : (jsSplit s ',').length = 4
  · simp [h]
  · simp [h]

/-- Claim C5 counterexample: the original claim requires a `MalformedGeometry`
failure, in both paths, on every input that is not exactly 4 numeric tokens.
But the batch path accepts `"400,700,500"` (3 tokens) without any failure,
and the modify path accepts `"400,abc,500,750"` (4 tokens, one non-numeric),
producing a `NaN` coordinate. -/
theorem C5_parseBox_counterexample :
    Cli.batchSignatureParse (some "sig.png") "400,700,500"
      = [{ position := [JsNum.int 400, JsNum.int 700, JsNum.int 500]
           imagePath := some "sig.png" }] ∧
    Cli.modifySignatureParse (some "sig.png") "400,abc,500,750"
      = Except.ok [{ position := [JsNum.int 400, JsNum.nan, JsNum.int 500, JsNum.int 750]
                     imagePath := some "sig.png" }] := by decide

theorem foldl_push_eq_map {α β : Type} (f : α → β) (files : List α) :
    ∀ acc : List β, files.foldl (fun rs file => rs ++ [f file]) acc = acc ++ files.map f := by
  induction files with
  | nil => intro acc; simp
  | cons x xs ih => intro acc; simp [ih]

/-- Claim C3: for every per-file outcome behaviour (any oracles), any edit
set, any options and any discovered file list — failures included — the
parallel strategy produces exactly the report list of the sequential
strategy: one report per discovered file, at the discovery-order position,
each the report of that file.  The concrete conjunct replays the spec's
3-file scenario with a corrupt second file under both strategies. -/
theorem C3_parallel_eq_sequential :
    (∀ (par : Bool) (orc : PDFModifier.PdfLibOracle) (fso : PDFModifier.FsOracle)
        (outputDir : String) (o : Cli.ModifyOptions) (mods : Cli.BatchMods)
        (files : List String),
      Cli.batchResults par orc fso outputDir o mods files
        = Cli.sequentialResults orc fso outputDir o mods files ∧
      (Cli.batchResults par orc fso outputDir o mods files).length = files.length ∧
      ∀ i : Nat, (Cli.batchResults par orc fso outputDir o mods files)[i]?
        = (files[i]?).map (Cli.processBatchFile orc fso outputDir o mods)) ∧
    (let fso : PDFModifier.FsOracle :=
      { readInput := fun p => if p = "in/b.pdf" then none else some 0
        loadDoc := fun _ => some { pages := [{ texts := [], images := [] }], fields := [] }
        saveDoc := fun _ => some 0
        writeOutput := fun _ _ => true }
     let orc : PDFModifier.PdfLibOracle :=
      { getFormOk := fun _ => true, fieldApplyOk := fun _ _ => true
        drawTextOk := fun _ => true, readFileOk := fun _ => true
        embedOk := fun _ => true, drawImageOk := fun _ => true }
     (Cli.batchResults true orc fso "out" {} (Cli.cliBatchMods {})
        ["in/a.pdf", "in/b.pdf", "in/c.pdf"]).map (fun r => (r.file, r.status))
        = [("a.pdf", "success"), ("b.pdf", "failed"), ("c.pdf", "success")] ∧
     (Cli.batchResults false orc fso "out" {} (Cli.cliBatchMods {})
        ["in/a.pdf", "in/b.pdf", "in/c.pdf"]).map (fun r => (r.file, r.status))
        = [("a.pdf", "success"), ("b.pdf", "failed"), ("c.pdf", "success")]) := by
  constructor
  · intro par orc fso outputDir o mods files
    have hseq : Cli.sequentialResults orc fso outputDir o mods files
        = files.map (Cli.processBatchFile orc fso outputDir o mods) := by
      unfold Cli.sequentialResults
      simpa using foldl_push_eq_map (Cli.processBatchFile orc fso outputDir o mods) files []
    have hbatch : Cli.batchResults par orc fso outputDir o mods files
        = files.map (Cli.processBatchFile orc fso outputDir o mods) := by
      unfold Cli.batchResults
      split
      · rfl
      · exact hseq
    refine ⟨hbatch.trans hseq.symm, ?_, ?_⟩
    · simp [hbatch]
    · intro i
      simp [hbatch]
  · exact ⟨by decide, by decide⟩

/-- Claim C8: the `batch-modify` command exits with code 0 whenever its
preparation phase succeeded, whatever the per-file reports contain (first
conjunct — even a fully failed report list gives 0), while the
single-document `modify` command exits non-zero whenever edits were requested
and its one document's modification failed (second conjunct), and 0 when it
succeeded (third conjunct). -/
theorem C8_exit_code_asymmetry :
    (∀ (results : List Cli.FileReport),
      Cli.batchModifyExitCode (Except.ok ()) results = 0) ∧
    (∀ (orc : PDFModifier.PdfLibOracle) (fso : PDFModifier.FsOracle)
        (input output : String) (o : Cli.ModifyOptions)
        (sigs : List PDFModifier.SignatureOptions) (forms : List PDFModifier.FormFillData)
        (texts : List PDFModifier.TextInsertion),
      Cli.modifyParseRequest o = Except.ok (sigs, forms, texts) →
      ¬ (sigs.length = 0 ∧ forms.length = 0 ∧ texts.length = 0) →
      (PDFModifier.modifyPdf orc fso input output sigs forms texts).success = false →
      Cli.modifyActionExitCode orc fso input output o = 1) ∧
    (∀ (orc : PDFModifier.PdfLibOracle) (fso : PDFModifier.FsOracle)
        (input output : String) (o : Cli.ModifyOptions)
        (sigs : List PDFModifier.SignatureOptions) (forms : List PDFModifier.FormFillData)
        (texts : List PDFModifier.TextInsertion),
      Cli.modifyParseRequest o = Except.ok (sigs, forms, texts) →
      (PDFModifier.modifyPdf orc fso input output sigs forms texts).success = true →
      Cli.modifyActionExitCode orc fso input output o = 0) := by
  refine ⟨fun results => rfl, ?_, ?_⟩
  · intro orc fso input output o sigs forms texts hparse hne hfail
    unfold Cli.modifyActionExitCode
    rw [hparse]
    dsimp only
    rw [if_neg hne]
    simp [hfail]
  · intro orc fso input output o sigs forms texts hparse hsucc
    unfold Cli.modifyActionExitCode
    rw [hparse]
    dsimp only
    by_cases hempty : sigs.length = 0 ∧ forms.length = 0 ∧ texts.length = 0
    · rw [if_pos hempty]
    · rw [if_neg hempty]
      simp [hsucc]

/-- Claim C8 witness: a batch report list whose only entry failed still exits
0, and a `modify` run whose document fails to load (the file-system oracle
refuses to read it) exits 1; both via the theorem at concrete inputs. -/
theorem C8_exit_code_asymmetry_witness :
    Cli.batchModifyExitCode (Except.ok ())
        [{ file := "a.pdf", status := "failed", error := some "boom" }] = 0 ∧
    Cli.modifyActionExitCode
        { getFormOk := fun _ => true, fieldApplyOk := fun _ _ => true
          drawTextOk := fun _ => true, readFileOk := fun _ => true
          embedOk := fun _ => true, drawImageOk := fun _ => true }
        { readInput := fun _ => none
          loadDoc := fun _ => some { pages := [], fields := [] }
          saveDoc := fun _ => some 0, writeOutput := fun _ _ => true }
        "in.pdf" "out.pdf" { addText := some "X" } = 1 :=
  ⟨C8_exit_code_asymmetry.1 [{ file := "a.pdf", status := "failed", error := some "boom" }],
   C8_exit_code_asymmetry.2.1
     { getFormOk := fun _ => true, fieldApplyOk := fun _ _ => true
       drawTextOk := fun _ => true, readFileOk := fun _ => true
       embedOk := fun _ => true, drawImageOk := fun _ => true }
     { readInput := fun _ => none
       loadDoc := fun _ => some { pages := [], fields := [] }
       saveDoc := fun _ => some 0, writeOutput := fun _ _ => true }
     "in.pdf" "out.pdf" { addText := some "X" }
     []
     []
     [{ text := "X", position := [JsNum.int 100, JsNum.int 100]
        pageNumber := some (JsNum.int 0), fontSize := some (JsNum.int 12) }]
     (by decide) (by decide) (by decide)⟩

/-- Claim C9: in a batch run the request — including any template and hence
any wall-clock text embedded by it — is built exactly once, from the clock
value at tick 0, before any file is processed; every per-file entry carries
that same `EditSet` (first conjunct), and under the `approval-stamp` template
every file's edit texts are exactly `APPROVED` and the dated line rendered
from the tick-0 clock (second conjunct), whatever the clock later shows. -/
theorem C9_template_resolved_once :
    (∀ (config : Option Cli.BatchMods) (templateName : Option String)
        (o : Cli.ModifyOptions) (clock : Nat → Cli.JsDate) (files : List String)
        (entry : String × Cli.BatchMods),
      entry ∈ Cli.batchEditSetsPerFile config templateName o clock files →
      entry.2 = Cli.buildBatchModifications config templateName o (clock 0)) ∧
    (∀ (o : Cli.ModifyOptions) (clock : Nat → Cli.JsDate) (files : List String)
        (entry : String × Cli.BatchMods),
      entry ∈ Cli.batchEditSetsPerFile none (some "approval-stamp") o clock files →
      (entry.2.textInsertions.getD []).map (fun t => t.text)
        = ["APPROVED", "Date: " ++ (clock 0).isoDate]) := by
  constructor
  · intro config templateName o clock files entry hmem
    unfold Cli.batchEditSetsPerFile at hmem
    dsimp only at hmem
    rw [List.mem_map] at hmem
    obtain ⟨f, _, rfl⟩ := hmem
    rfl
  · intro o clock files entry hmem
    unfold Cli.batchEditSetsPerFile at hmem
    dsimp only at hmem
    rw [List.mem_map] at hmem
    obtain ⟨f, _, rfl⟩ := hmem
    rfl

/-- Claim C9 witness: a two-file run under the `approval-stamp` template with
a clock that changes between ticks; both files' entries still carry the
tick-0 date line, via the theorem at those concrete inputs. -/
theorem C9_template_resolved_once_witness :
    ((("b.pdf",
        Cli.buildBatchModifications none (some "approval-stamp") {}
          ({ isoDate := "2026-10-11", timeOfDay := "09:00:00" } : Cli.JsDate))
      : String × Cli.BatchMods).2.textInsertions.getD []).map (fun t => t.text)
      = ["APPROVED", "Date: 2026-10-11"] :=
  C9_template_resolved_once.2 {}
    (fun n => if n = 0 then { isoDate := "2026-10-11", timeOfDay := "09:00:00" }
      else { isoDate := "2026-10-12", timeOfDay := "09:00:00" })
    ["a.pdf", "b.pdf"]
    ("b.pdf",
      Cli.buildBatchModifications none (some "approval-stamp") {}
        { isoDate := "2026-10-11", timeOfDay := "09:00:00" })
    (by decide)

/-- Claim C10: when the resolved configuration has `includePageInfo` off (its
constructor default), a successful `parseFile` produces no per-page split, so
`extractPages` returns the entire document text unchanged for every
page-range string — the range is silently ignored, neither applied nor
rejected. -/
theorem C10_extractPages_ignores_range :
    ∀ (cIn : PdfParser.PdfConfigInput) (safety : PdfParser.SafetyResult)
      (raw : PdfParser.RawPdf) (range : String),
      (PdfParser.mkConfig cIn).includePageInfo = false →
      (PdfParser.parseFile (PdfParser.mkConfig cIn) safety (Except.ok raw)).success = true →
      PdfParser.extractPages (PdfParser.mkConfig cIn) safety (Except.ok raw) range
        = Except.ok raw.text := by
  intro cIn safety raw range hinc hsucc
  unfold PdfParser.parseFile at hsucc
  unfold PdfParser.extractPages PdfParser.parseFile
  by_cases hs : (PdfParser.mkConfig cIn).safetyChecks ∧ safety.isSafe = false
  · rw [if_pos hs] at hsucc
    simp at hsucc
  · rw [if_neg hs] at hsucc ⊢
    dsimp only
    rw [hinc]
    rfl

/-- Claim C10 witness: the theorem at a default configuration, a passing
safety check, a concrete 3-page parse result and the range `1-2`; the whole
text comes back. -/
theorem C10_extractPages_ignores_range_witness :
    PdfParser.extractPages (PdfParser.mkConfig {})
        { isSafe := true, issues := [] }
        (Except.ok { text := "hello world", numpages := 3 }) "1-2"
      = Except.ok "hello world" :=
  C10_extractPages_ignores_range {} { isSafe := true, issues := [] }
    { text := "hello world", numpages := 3 } "1-2" (by decide) (by decide)


theorem modifyWithPdfLib_ok_success (orc : PDFModifier.PdfLibOracle)
    (fso : PDFModifier.FsOracle) (inp outp : String)
    (sigs : List PDFModifier.SignatureOptions) (forms : List PDFModifier.FormFillData)
    (texts : List PDFModifier.TextInsertion) (imgs : List PDFModifier.ImageInsertion)
    (r : PDFModifier.PDFModificationResult)
    (h : PDFModifier.modifyWithPdfLib orc fso inp outp sigs forms texts imgs = Except.ok r) :
    r.success = true := by
  unfold PDFModifier.modifyWithPdfLib at h
  split at h
  · simp at h
  · split at h
    · simp at h
    · dsimp only at h
      split at h
      · simp at h
      · split at h
        · injection h with h2
          rw [← h2]
        · simp at h

/-- Claim C7: `modifyPdf` is a total function into outcome records (no
exception escapes to its caller), and its outcome has `success = false`
exactly when the spec's hard-failure condition holds — the source cannot be
read or loaded, or the final document cannot be saved or written (first
conjunct); in that case every modification count is zero, the output path is
empty and an error message is present (second conjunct); in every other case
`success = true` (first conjunct, right to left). -/
theorem C7_modifyPdf_hard_failures :
    ∀ (orc : PDFModifier.PdfLibOracle) (fso : PDFModifier.FsOracle) (inp outp : String)
      (sigs : List PDFModifier.SignatureOptions) (forms : List PDFModifier.FormFillData)
      (texts : List PDFModifier.TextInsertion) (imgs : List PDFModifier.ImageInsertion),
      ((PDFModifier.modifyPdf orc fso inp outp sigs forms texts imgs).success = false ↔
        specHardFailure orc fso inp outp sigs forms texts imgs = true) ∧
      ((PDFModifier.modifyPdf orc fso inp outp sigs forms texts imgs).success = false →
        (PDFModifier.modifyPdf orc fso inp outp sigs forms texts imgs).modificationsApplied = 0 ∧
        (PDFModifier.modifyPdf orc fso inp outp sigs forms texts imgs).signaturesAdded = 0 ∧
        (PDFModifier.modifyPdf orc fso inp outp sigs forms texts imgs).formsFilled = 0 ∧
        (PDFModifier.modifyPdf orc fso inp outp sigs forms texts imgs).textInsertions = 0 ∧
        (PDFModifier.modifyPdf orc fso inp outp sigs forms texts imgs).imageInsertions = 0 ∧
        (PDFModifier.modifyPdf orc fso inp outp sigs forms texts imgs).outputPath = "" ∧
        (PDFModifier.modifyPdf orc fso inp outp sigs forms texts imgs).errorMessage.isSome
          = true) := by
  intro orc fso inp outp sigs forms texts imgs
  unfold PDFModifier.modifyPdf PDFModifier.modifyWithPdfLib specHardFailure
  cases fso.readInput inp with
  | none => exact ⟨by simp, fun _ => ⟨rfl, rfl, rfl, rfl, rfl, rfl, rfl⟩⟩
  | some bytes =>
    dsimp only
    cases fso.loadDoc bytes with
    | none => exact ⟨by simp, fun _ => ⟨rfl, rfl, rfl, rfl, rfl, rfl, rfl⟩⟩
    | some doc =>
      dsimp only
      cases fso.saveDoc (PDFModifier.applyEditPhases orc doc sigs forms texts imgs).1 with
      | none => exact ⟨by simp, fun _ => ⟨rfl, rfl, rfl, rfl, rfl, rfl, rfl⟩⟩
      | some b =>
        dsimp only
        by_cases hw : fso.writeOutput outp b = true
        · rw [if_pos hw]
          refine ⟨by simp [hw], fun h => absurd h (by simp)⟩
        · rw [if_neg hw]
          simp only [Bool.not_eq_true] at hw
          exact ⟨by simp [hw], fun _ => ⟨rfl, rfl, rfl, rfl, rfl, rfl, rfl⟩⟩

/-- Claim C7 witness: the theorem evaluated with a file system whose write
step refuses: the failure outcome carries an empty output path and zero
filled forms; the implication's hypothesis is discharged by computation. -/
theorem C7_modifyPdf_hard_failures_witness :
    (PDFModifier.modifyPdf
        { getFormOk := fun _ => true, fieldApplyOk := fun _ _ => true
          drawTextOk := fun _ => true, readFileOk := fun _ => true
          embedOk := fun _ => true, drawImageOk := fun _ => true }
        { readInput := fun _ => some 0
          loadDoc := fun _ => some { pages := [{ texts := [], images := [] }], fields := [] }
          saveDoc := fun _ => some 7, writeOutput := fun _ _ => false }
        "in.pdf" "out.pdf" [] []
        [{ text := "X", position := [JsNum.int 1, JsNum.int 2] }] []).outputPath = "" ∧
    (PDFModifier.modifyPdf
        { getFormOk := fun _ => true, fieldApplyOk := fun _ _ => true
          drawTextOk := fun _ => true, readFileOk := fun _ => true
          embedOk := fun _ => true, drawImageOk := fun _ => true }
        { readInput := fun _ => some 0
          loadDoc := fun _ => some { pages := [{ texts := [], images := [] }], fields := [] }
          saveDoc := fun _ => some 7, writeOutput := fun _ _ => false }
        "in.pdf" "out.pdf" [] []
        [{ text := "X", position := [JsNum.int 1, JsNum.int 2] }] []).formsFilled = 0 :=
  ⟨((C7_modifyPdf_hard_failures
      { getFormOk := fun _ => true, fieldApplyOk := fun _ _ => true
        drawTextOk := fun _ => true, readFileOk := fun _ => true
        embedOk := fun _ => true, drawImageOk := fun _ => true }
      { readInput := fun _ => some 0
        loadDoc := fun _ => some { pages := [{ texts := [], images := [] }], fields := [] }
        saveDoc := fun _ => some 7, writeOutput := fun _ _ => false }
      "in.pdf" "out.pdf" [] []
      [{ text := "X", position := [JsNum.int 1, JsNum.int 2] }] []).2 (by decide)).2.2.2.2.2.1,
   ((C7_modifyPdf_hard_failures
      { getFormOk := fun _ => true, fieldApplyOk := fun _ _ => true
        drawTextOk := fun _ => true, readFileOk := fun _ => true
        embedOk := fun _ => true, drawImageOk := fun _ => true }
      { readInput := fun _ => some 0
        loadDoc := fun _ => some { pages := [{ texts := [], images := [] }], fields := [] }
        saveDoc := fun _ => some 7, writeOutput := fun _ _ => false }
      "in.pdf" "out.pdf" [] []
      [{ text := "X", position := [JsNum.int 1, JsNum.int 2] }] []).2 (by decide)).2.2.1⟩

theorem fillFormsStep_absent (orc : PDFModifier.PdfLibOracle) (doc : PDFModifier.PdfDoc)
    (n : Nat) (item : PDFModifier.FormFillData)
    (hfind : doc.fields.findIdx? (fun f => f.name = item.fieldName) = none) :
    PDFModifier.fillFormsStep orc (doc, n) item = (doc, n) := by
  unfold PDFModifier.fillFormsStep
  dsimp only
  rw [hfind]

theorem fillForms_nil (orc : PDFModifier.PdfLibOracle) (doc : PDFModifier.PdfDoc) :
    PDFModifier.fillForms orc doc [] = (doc, 0) := by
  unfold PDFModifier.fillForms
  simp

theorem fillForms_absent_cons (orc : PDFModifier.PdfLibOracle) (doc : PDFModifier.PdfDoc)
    (item : PDFModifier.FormFillData) (rest : List PDFModifier.FormFillData)
    (hfind : doc.fields.findIdx? (fun f => f.name = item.fieldName) = none) :
    PDFModifier.fillForms orc doc (item :: rest) = PDFModifier.fillForms orc doc rest := by
  unfold PDFModifier.fillForms
  by_cases hg : orc.getFormOk doc = true
  · rw [if_pos hg, if_pos hg, List.foldl_cons, fillFormsStep_absent orc doc 0 item hfind]
  · rw [if_neg hg, if_neg hg]

theorem insertTextStep_missing_page (orc : PDFModifier.PdfLibOracle)
    (doc : PDFModifier.PdfDoc) (n : Nat) (t : PDFModifier.TextInsertion)
    (hpage : PDFModifier.jsIndex (PDFModifier.pageOr0 t.pageNumber) doc.pages.length = none) :
    PDFModifier.insertTextStep orc (doc, n) t = (doc, n) := by
  unfold PDFModifier.insertTextStep
  dsimp only
  rw [hpage]

theorem insertImagesStep_skip (orc : PDFModifier.PdfLibOracle)
    (doc : PDFModifier.PdfDoc) (n : Nat) (im : PDFModifier.ImageInsertion)
    (hskip : orc.readFileOk im.imagePath = false ∨
      (jsEndsWith (jsToLower im.imagePath) ".png" = false ∧
        jsEndsWith (jsToLower im.imagePath) ".jpg" = false ∧
        jsEndsWith (jsToLower im.imagePath) ".jpeg" = false)) :
    PDFModifier.insertImagesStep orc (doc, n) im = (doc, n) := by
  unfold PDFModifier.insertImagesStep
  dsimp only
  cases hidx : PDFModifier.jsIndex (PDFModifier.pageOr0 im.pageNumber) doc.pages.length with
  | none => rfl
  | some i =>
    dsimp only
    rcases hskip with hread | ⟨h1, h2, h3⟩
    · simp [hread]
    · by_cases hread : orc.readFileOk im.imagePath = true
      · simp [hread, h1, h2, h3]
      · simp [hread]

theorem modifyPdf_success_of_persist (orc : PDFModifier.PdfLibOracle)
    (fso : PDFModifier.FsOracle) (inp outp : String)
    (sigs : List PDFModifier.SignatureOptions) (forms : List PDFModifier.FormFillData)
    (texts : List PDFModifier.TextInsertion) (imgs : List PDFModifier.ImageInsertion)
    (bytes : Nat) (doc : PDFModifier.PdfDoc)
    (hread : fso.readInput inp = some bytes) (hload : fso.loadDoc bytes = some doc)
    (hsave : ∀ d, (fso.saveDoc d).isSome = true)
    (hwrite : ∀ p b, fso.writeOutput p b = true) :
    (PDFModifier.modifyPdf orc fso inp outp sigs forms texts imgs).success = true := by
  unfold PDFModifier.modifyPdf PDFModifier.modifyWithPdfLib
  rw [hread]
  dsimp only
  rw [hload]
  dsimp only
  obtain ⟨b, hb⟩ := Option.isSome_iff_exists.mp
    (hsave (PDFModifier.applyEditPhases orc doc sigs forms texts imgs).1)
  rw [hb]
  dsimp only
  rw [hwrite outp b]
  rfl

theorem modifyPdf_formsFilled_absent (orc : PDFModifier.PdfLibOracle)
    (fso : PDFModifier.FsOracle) (inp outp : String) (item : PDFModifier.FormFillData)
    (bytes : Nat) (doc : PDFModifier.PdfDoc)
    (hread : fso.readInput inp = some bytes) (hload : fso.loadDoc bytes = some doc)
    (hsave : ∀ d, (fso.saveDoc d).isSome = true)
    (hwrite : ∀ p b, fso.writeOutput p b = true)
    (hfind : doc.fields.findIdx? (fun f => f.name = item.fieldName) = none) :
    (PDFModifier.modifyPdf orc fso inp outp [] [item] [] []).formsFilled = 0 := by
  unfold PDFModifier.modifyPdf PDFModifier.modifyWithPdfLib
  rw [hread]
  dsimp only
  rw [hload]
  dsimp only
  obtain ⟨b, hb⟩ := Option.isSome_iff_exists.mp
    (hsave (PDFModifier.applyEditPhases orc doc [] [item] [] []).1)
  rw [hb]
  dsimp only
  rw [hwrite outp b]
  show (PDFModifier.applyEditPhases orc doc [] [item] [] []).2.1 = 0
  unfold PDFModifier.applyEditPhases
  dsimp only
  rw [if_pos (by simp)]
  rw [fillForms_absent_cons orc doc item [] hfind, fillForms_nil]

/-- Claim C6: within one document every per-edit failure is caught and
recorded as a skip.  A form fill naming an absent field leaves the document
and the filled count unchanged, per step and per list (conjuncts one and
two), so the remaining edits are still applied; a text insertion whose
target page does not exist is skipped (conjunct three); an image insertion
whose file cannot be read or whose extension is unsupported is skipped
(conjunct four); whenever the document loads and persists, the outcome has
`success = true` regardless of such failures (conjunct five); and a form
fill naming an absent field yields `success = true` with `formsFilled = 0`
(conjunct six). -/
theorem C6_per_edit_soft_failures :
    (∀ (orc : PDFModifier.PdfLibOracle) (doc : PDFModifier.PdfDoc) (n : Nat)
        (item : PDFModifier.FormFillData),
      doc.fields.findIdx? (fun f => f.name = item.fieldName) = none →
      PDFModifier.fillFormsStep orc (doc, n) item = (doc, n)) ∧
    (∀ (orc : PDFModifier.PdfLibOracle) (doc : PDFModifier.PdfDoc)
        (item : PDFModifier.FormFillData) (rest : List PDFModifier.FormFillData),
      doc.fields.findIdx? (fun f => f.name = item.fieldName) = none →
      PDFModifier.fillForms orc doc (item :: rest) = PDFModifier.fillForms orc doc rest) ∧
    (∀ (orc : PDFModifier.PdfLibOracle) (doc : PDFModifier.PdfDoc) (n : Nat)
        (t : PDFModifier.TextInsertion),
      PDFModifier.jsIndex (PDFModifier.pageOr0 t.pageNumber) doc.pages.length = none →
      PDFModifier.insertTextStep orc (doc, n) t = (doc, n)) ∧
    (∀ (orc : PDFModifier.PdfLibOracle) (doc : PDFModifier.PdfDoc) (n : Nat)
        (im : PDFModifier.ImageInsertion),
      orc.readFileOk im.imagePath = false ∨
        (jsEndsWith (jsToLower im.imagePath) ".png" = false ∧
          jsEndsWith (jsToLower im.imagePath) ".jpg" = false ∧
          jsEndsWith (jsToLower im.imagePath) ".jpeg" = false) →
      PDFModifier.insertImagesStep orc (doc, n) im = (doc, n)) ∧
    (∀ (orc : PDFModifier.PdfLibOracle) (fso : PDFModifier.FsOracle) (inp outp : String)
        (sigs : List PDFModifier.SignatureOptions) (forms : List PDFModifier.FormFillData)
        (texts : List PDFModifier.TextInsertion) (imgs : List PDFModifier.ImageInsertion)
        (bytes : Nat) (doc : PDFModifier.PdfDoc),
      fso.readInput inp = some bytes → fso.loadDoc bytes = some doc →
      (∀ d, (fso.saveDoc d).isSome = true) → (∀ p b, fso.writeOutput p b = true) →
      (PDFModifier.modifyPdf orc fso inp outp sigs forms texts imgs).success = true) ∧
    (∀ (orc : PDFModifier.PdfLibOracle) (fso : PDFModifier.FsOracle) (inp outp : String)
        (item : PDFModifier.FormFillData) (bytes : Nat) (doc : PDFModifier.PdfDoc),
      fso.readInput inp = some bytes → fso.loadDoc bytes = some doc →
      (∀ d, (fso.saveDoc d).isSome = true) → (∀ p b, fso.writeOutput p b = true) →
      doc.fields.findIdx? (fun f => f.name = item.fieldName) = none →
      (PDFModifier.modifyPdf orc fso inp outp [] [item] [] []).success = true ∧
      (PDFModifier.modifyPdf orc fso inp outp [] [item] [] []).formsFilled = 0) :=
  ⟨fillFormsStep_absent, fillForms_absent_cons, insertTextStep_missing_page,
   insertImagesStep_skip,
   fun orc fso inp outp sigs forms texts imgs bytes doc hr hl hs hw =>
     modifyPdf_success_of_persist orc fso inp outp sigs forms texts imgs bytes doc hr hl hs hw,
   fun orc fso inp outp item bytes doc hr hl hs hw hfind =>
     ⟨modifyPdf_success_of_persist orc fso inp outp [] [item] [] [] bytes doc hr hl hs hw,
      modifyPdf_formsFilled_absent orc fso inp outp item bytes doc hr hl hs hw hfind⟩⟩

/-- Claim C6 witness: a concrete document with one text field named `name`,
a form fill targeting the absent field `email`, oracles that load and persist
successfully; the outcome via the theorem's last conjunct is `success = true`
with `formsFilled = 0`. -/
theorem C6_per_edit_soft_failures_witness :
    (PDFModifier.modifyPdf
        { getFormOk := fun _ => true, fieldApplyOk := fun _ _ => true
          drawTextOk := fun _ => true, readFileOk := fun _ => true
          embedOk := fun _ => true, drawImageOk := fun _ => true }
        { readInput := fun _ => some 0
          loadDoc := fun _ => some
            { pages := [{ texts := [], images := [] }]
              fields := [{ name := "name", kind := PDFModifier.FieldKind.textField
                           value := "" }] }
          saveDoc := fun _ => some 1, writeOutput := fun _ _ => true }
        "in.pdf" "out.pdf" [] [{ fieldName := "email", fieldValue := "x@y" }] []
        []).success = true ∧
    (PDFModifier.modifyPdf
        { getFormOk := fun _ => true, fieldApplyOk := fun _ _ => true
          drawTextOk := fun _ => true, readFileOk := fun _ => true
          embedOk := fun _ => true, drawImageOk := fun _ => true }
        { readInput := fun _ => some 0
          loadDoc := fun _ => some
            { pages := [{ texts := [], images := [] }]
              fields := [{ name := "name", kind := PDFModifier.FieldKind.textField
                           value := "" }] }
          saveDoc := fun _ => some 1, writeOutput := fun _ _ => true }
        "in.pdf" "out.pdf" [] [{ fieldName := "email", fieldValue := "x@y" }] []
        []).formsFilled = 0 :=
  C6_per_edit_soft_failures.2.2.2.2.2
    { getFormOk := fun _ => true, fieldApplyOk := fun _ _ => true
      drawTextOk := fun _ => true, readFileOk := fun _ => true
      embedOk := fun _ => true, drawImageOk := fun _ => true }
    { readInput := fun _ => some 0
      loadDoc := fun _ => some
        { pages := [{ texts := [], images := [] }]
          fields := [{ name := "name", kind := PDFModifier.FieldKind.textField
                       value := "" }] }
      saveDoc := fun _ => some 1, writeOutput := fun _ _ => true }
    "in.pdf" "out.pdf" { fieldName := "email", fieldValue := "x@y" } 0
    { pages := [{ texts := [], images := [] }]
      fields := [{ name := "name", kind := PDFModifier.FieldKind.textField, value := "" }] }
    (by decide) (by decide) (fun d => rfl) (fun p b => rfl) (by decide)
